import Mathlib

/-!
# Verification of the RustyHook hook-execution engine

A shallow embedding, in Lean 4, of the core of the `rustyhook` repository:
the parallel scheduler (`src/runner/parallel.rs`), the file matcher
(`src/runner/file_matcher.rs`), the hook context (`src/runner/hook_context.rs`),
the hook resolver (`src/runner/hook_resolver.rs`), the cache manager
(`src/cache/mod.rs`) and the Python toolchain provisioner
(`src/toolchains/python.rs`).

Modelling conventions:
* Filesystem paths are represented by their textual form (`String`), which is
  what `Path::to_string_lossy` produces and what the regex matcher consumes.
* A compiled regex is represented by its match predicate `String → Bool`;
  compiling a pattern is an abstract environment parameter
  `String → Except e FileMatcher`, since the engine never inspects the regex
  beyond `is_match`.
* Subprocess and filesystem effects are made explicit: spawning a command is an
  oracle argument describing its outcome, the filesystem is explicit state.
* Machine integers that matter (`parallelism : usize`, durations) are `Nat`.
-/

namespace RustyHook

/-- Textual form of a filesystem path (`Path::to_string_lossy`). -/
abbrev Path := String

/-! ## Data model — `src/config/parser.rs` -/

/-- Model of `HookType` from `src/config/parser.rs`: built-in or external hook. -/
inductive HookType where
  | builtIn : HookType
  | external : HookType
deriving DecidableEq

/-- Model of `AccessMode` from `src/config/parser.rs`: read-only or read-write. -/
inductive AccessMode where
  | read : AccessMode
  | readWrite : AccessMode
deriving DecidableEq

/-- Model of `Hook` from `src/config/parser.rs`. -/
structure Hook where
  id : String
  name : String
  entry : String
  language : String
  files : String
  stages : List String
  args : List String
  env : List (String × String)
  version : Option String
  hook_type : HookType
  separate_process : Bool
  access_mode : AccessMode
deriving DecidableEq

/-- Model of `Repo` from `src/config/parser.rs`. -/
structure Repo where
  repo : String
  hooks : List Hook
deriving DecidableEq

/-- Model of `Config` from `src/config/parser.rs`.  `parallelism = 0` means unbounded. -/
structure Config where
  default_stages : List String
  fail_fast : Bool
  parallelism : Nat
  repos : List Repo
deriving DecidableEq

/-! ## File matcher — `src/runner/file_matcher.rs` -/

/-- A compiled regex, represented by its match predicate (`Regex::is_match`). -/
structure FileMatcher where
  isMatch : String → Bool

/-- Model of `FileMatcher::matches`: match the path's textual form against the regex. -/
def FileMatcher.matches (m : FileMatcher) (path : Path) : Bool :=
  m.isMatch path

/-- Model of `FileMatcher::filter_files`: keep exactly the matching files, in order. -/
def FileMatcher.filter_files (m : FileMatcher) (files : List Path) : List Path :=
  files.filter fun path => m.matches path

/-! ## Error types — `src/toolchains/trait.rs`, `src/runner/hook_context.rs`,
`src/runner/hook_resolver.rs`, `src/runner/parallel.rs` -/

/-- Model of `std::io::ErrorKind`, restricted to the kinds the engine distinguishes. -/
inductive IoErrorKind where
  | notFound : IoErrorKind
  | permissionDenied : IoErrorKind
  | other : IoErrorKind
deriving DecidableEq

/-- Model of `ToolError` from `src/toolchains/trait.rs:23-36`. -/
inductive ToolError where
  | executionError (msg : String)
  | toolNotFound (msg : String)
  | installationError (msg : String)
  | ioError (kind : IoErrorKind) (msg : String)
deriving DecidableEq

/-- Model of `FileMatcherError` from `src/runner/file_matcher.rs:10-16`. -/
inductive FileMatcherError where
  | regexError (msg : String)
  | globError (msg : String)
deriving DecidableEq

/-- Model of `HookContextError` from `src/runner/hook_context.rs:11-23`.  The enum as
declared there has exactly these four variants; in particular it declares no
`CommandNotFound` variant, even though `run_hook` in `hook_resolver.rs:299,317`
and `run_hook_with_context` in `parallel.rs:155` pattern-match on a
`HookContextError::CommandNotFound { command, hook_id, error }` arm. -/
inductive HookContextError where
  | processError (msg : String)
  | ioError (kind : IoErrorKind) (msg : String)
  | hookError (msg : String)
  | toolError (e : ToolError)
deriving DecidableEq

/-- Model of `HookResolverError` from `src/runner/hook_resolver.rs:15-39`. -/
inductive HookResolverError where
  | fileMatcherError (e : FileMatcherError)
  | toolError (e : ToolError)
  | hookError (msg : String)
  | hookNotFound (msg : String)
  | unsupportedLanguage (lang : String)
  | processError (msg : String)
  | ioError (kind : IoErrorKind) (msg : String)
  | fileNotFound (path : String) (context : String)
deriving DecidableEq

/-- Model of `ParallelExecutionError` from `src/runner/parallel.rs:19-26`: it wraps one
resolver error or one task-join error; the type has no variant that could
carry more than a single error. -/
inductive ParallelExecutionError where
  | hookResolverError (e : HookResolverError)
  | tokioError (msg : String)
deriving DecidableEq

/-! ## Hook context — `src/runner/hook_context.rs` -/

/-- Worker for `split_whitespace`: `cur` holds the current token reversed. -/
def split_whitespace_go : List Char → List Char → List String
  | [], cur => if cur.isEmpty then [] else [String.mk cur.reverse]
  | c :: cs, cur =>
      if c.isWhitespace then
        (if cur.isEmpty then [] else [String.mk cur.reverse]) ++
          split_whitespace_go cs []
      else split_whitespace_go cs (c :: cur)

/-- Rust's `str::split_whitespace`: the maximal non-empty runs of
non-whitespace characters, in order. -/
def split_whitespace (s : String) : List String :=
  split_whitespace_go s.data []

/-- Model of `HookContext` from `src/runner/hook_context.rs:42-83`. -/
structure HookContext where
  id : String
  name : String
  entry : String
  language : String
  files : String
  stages : List String
  args : List String
  env : List (String × String)
  version : Option String
  hook_type : HookType
  separate_process : Bool
  working_dir : Path
  files_to_process : List Path
deriving DecidableEq

/-- Model of `HookContext::from_hook` (`src/runner/hook_context.rs:120-140`). -/
def HookContext.from_hook (hook : Hook) (working_dir : Path)
    (files_to_process : List Path) : HookContext :=
  { id := hook.id
    name := hook.name
    entry := hook.entry
    language := hook.language
    files := hook.files
    stages := hook.stages
    args := hook.args
    env := hook.env
    version := hook.version
    hook_type := hook.hook_type
    separate_process := hook.separate_process
    working_dir := working_dir
    files_to_process := files_to_process }

/-- Model of `HookContext::should_run_in_separate_process`
(`src/runner/hook_context.rs:143-145`). -/
def HookContext.should_run_in_separate_process (ctx : HookContext) : Bool :=
  ctx.separate_process || decide (ctx.hook_type = HookType.external)

/-- Outcome of `Command::output()` for a spawned command: either an
`std::io::Error` (spawn or wait failure), or the process completed with the
given exit status and captured stderr. -/
inductive SpawnOutcome where
  | ioError (kind : IoErrorKind) (msg : String)
  | completed (success : Bool) (stderr : String)
deriving DecidableEq

/-- Model of `HookContext::run_in_separate_process`
(`src/runner/hook_context.rs:148-201`).  The subprocess world is the `spawn`
oracle: what `command.output()` would produce for the assembled command.
An empty `entry` is rejected first; an I/O failure from `output()` is
propagated through the `?` operator, which converts it with
`From<std::io::Error>` into `HookContextError::IoError` — for every
`ErrorKind`, including `NotFound`; a completed process with non-success
status becomes `ProcessError` carrying the hook id and stderr. -/
def HookContext.run_in_separate_process (ctx : HookContext)
    (spawn : SpawnOutcome) : Except HookContextError Unit :=
  let parts := split_whitespace ctx.entry
  if parts = [] then
    Except.error (HookContextError.processError ("Empty entry for hook " ++ ctx.id))
  else
    match spawn with
    | SpawnOutcome.ioError kind msg =>
        Except.error (HookContextError.ioError kind msg)
    | SpawnOutcome.completed true _ => Except.ok ()
    | SpawnOutcome.completed false stderr =>
        Except.error (HookContextError.processError
          ("Hook " ++ ctx.id ++ " failed: " ++ stderr))

/-- A `&dyn Tool` as consumed by `HookContext::execute`: only its `run`
method is invoked there, so it is represented by that method. -/
structure ToolDyn where
  run : List Path → Except ToolError Unit

/-- Model of `HookContext::execute` (`src/runner/hook_context.rs:204-224`). -/
def HookContext.execute (ctx : HookContext) (tool : Option ToolDyn)
    (spawn : SpawnOutcome) : Except HookContextError Unit :=
  if ctx.files_to_process = [] then Except.ok ()
  else if ctx.should_run_in_separate_process then
    ctx.run_in_separate_process spawn
  else
    match tool with
    | some t => (t.run ctx.files_to_process).mapError HookContextError.toolError
    | none =>
        Except.error (HookContextError.processError
          ("No tool provided for hook " ++ ctx.id))

/-! ## Parallel scheduler — `src/runner/parallel.rs` -/

/-- An execution unit `(repo_id, hook_id, hook, filtered_files)` as produced by
`ParallelExecutor::prepare_hook_contexts`. -/
structure ExecUnit where
  repo_id : String
  hook_id : String
  hook : Hook
  filtered_files : List Path
deriving DecidableEq

/-- The closure `hooks_overlap` in `ParallelExecutor::run_all_hooks`
(`src/runner/parallel.rs:221-231`): two write hooks overlap when either
`files` pattern is empty, or the patterns are string-equal. -/
def hooks_overlap (hook1 hook2 : Hook) : Bool :=
  if hook1.files = "" || hook2.files = "" then true
  else hook1.files = hook2.files

/-- The inner loop of the grouping pass: `hook` may be added to `group` iff it
overlaps no hook already in the group (`src/runner/parallel.rs:239-247`). -/
def can_add_to_group (hook : Hook) (group : List ExecUnit) : Bool :=
  group.all fun existing => !(hooks_overlap existing.hook hook)

/-- One step of the greedy first-fit grouping
(`src/runner/parallel.rs:234-260`): scan the groups in order, append the unit
to the first group it does not overlap, else open a new group at the end. -/
def add_to_groups (u : ExecUnit) : List (List ExecUnit) → List (List ExecUnit)
  | [] => [[u]]
  | g :: gs =>
      if can_add_to_group u.hook g then (g ++ [u]) :: gs
      else g :: add_to_groups u gs

/-- The whole grouping pass over the write units, in declaration order. -/
def group_write_hooks (units : List ExecUnit) : List (List ExecUnit) :=
  units.foldl (fun gs u => add_to_groups u gs) []

/-- Worker for `chunksOf`: `cur` is the chunk currently being filled. -/
def chunks_go (n : Nat) : List α → List α → List (List α)
  | [], cur => if cur.isEmpty then [] else [cur]
  | x :: xs, cur =>
      if cur.length + 1 < n then chunks_go n xs (cur ++ [x])
      else (cur ++ [x]) :: chunks_go n xs []

/-- Rust's `slice::chunks(n)` (with `n > 0`): split a list into consecutive
chunks of size `n`, the last possibly shorter. -/
def chunksOf (n : Nat) (l : List α) : List (List α) :=
  if n = 0 then [] else chunks_go n l []

/-- Batches dispatched for a single admitted set (the read pool or one write
group): when `parallelism > 0` the set is chunked, else it is one batch
(`src/runner/parallel.rs:200-208` and `266-274`). -/
def dispatch_batches (parallelism : Nat) (group : List ExecUnit) : List (List ExecUnit) :=
  if parallelism > 0 then chunksOf parallelism group else [group]

/-! ## Hook resolver: context creation — `src/runner/hook_resolver.rs` -/

/-- Model of `HookResolver::create_context` (`src/runner/hook_resolver.rs:142-163`).
`fromRegex` is the regex-compilation environment (`FileMatcher::from_regex`);
the working directory, obtained there from `env::current_dir()`, is a
parameter.  A non-empty `files` pattern is compiled and used to filter the
file list; an empty pattern delivers the whole list. -/
def create_context (fromRegex : String → Except FileMatcherError FileMatcher)
    (hook : Hook) (working_dir : Path) (files : List Path) :
    Except HookResolverError HookContext :=
  if hook.files ≠ "" then
    match fromRegex hook.files with
    | Except.ok matcher =>
        Except.ok (HookContext.from_hook hook working_dir
          (matcher.filter_files files))
    | Except.error e => Except.error (HookResolverError.fileMatcherError e)
  else
    Except.ok (HookContext.from_hook hook working_dir files)

/-! ## Scheduler preparation and batch running — `src/runner/parallel.rs` -/

/-- The per-hook filtering step of `ParallelExecutor::prepare_hook_contexts`
(`src/runner/parallel.rs:102-109`): a non-empty pattern is compiled and
applied, an empty pattern keeps the whole list. -/
def prepare_filtered (fromRegex : String → Except FileMatcherError FileMatcher)
    (hook : Hook) (files : List Path) : Except FileMatcherError (List Path) :=
  if hook.files ≠ "" then
    (fromRegex hook.files).map fun m => m.filter_files files
  else Except.ok files

/-- The loop body of `ParallelExecutor::prepare_hook_contexts`
(`src/runner/parallel.rs:96-119`), over the flattened `(repo, hook)` list:
skip listed hooks, filter the files through the hook's compiled pattern
(empty pattern keeps everything), return the first compile error, and drop
hooks whose filtered list is empty. -/
def prepare_units (fromRegex : String → Except FileMatcherError FileMatcher)
    (hooks_to_skip : List String) (files : List Path) :
    List (String × Hook) → Except ParallelExecutionError (List ExecUnit)
  | [] => Except.ok []
  | (repo_id, hook) :: rest =>
      if hooks_to_skip.contains hook.id then
        prepare_units fromRegex hooks_to_skip files rest
      else
        match prepare_filtered fromRegex hook files with
        | Except.error e =>
            Except.error (ParallelExecutionError.hookResolverError
              (HookResolverError.fileMatcherError e))
        | Except.ok filtered =>
            match prepare_units fromRegex hooks_to_skip files rest with
            | Except.error e => Except.error e
            | Except.ok units =>
                if filtered ≠ [] then
                  Except.ok ({ repo_id := repo_id, hook_id := hook.id,
                               hook := hook, filtered_files := filtered } :: units)
                else Except.ok units

/-- Model of `ParallelExecutor::prepare_hook_contexts` (`src/runner/parallel.rs:82-120`):
iterate every hook of every repo in declaration order. -/
def prepare_hook_contexts (fromRegex : String → Except FileMatcherError FileMatcher)
    (config : Config) (hooks_to_skip : List String) (files : List Path) :
    Except ParallelExecutionError (List ExecUnit) :=
  prepare_units fromRegex hooks_to_skip files
    (config.repos.flatMap fun r => r.hooks.map fun h => (r.repo, h))

/-- Model of `ParallelExecutor::run_hook_batch` (`src/runner/parallel.rs:281-316`),
with the per-unit outcome of `run_hook_with_context` supplied by the `exec`
oracle.  All units of the batch are spawned (first component: the hook ids
dispatched); the join loop then applies `result??`, so the first task error —
join order is modelled as spawn order — is returned alone and ends the loop. -/
def run_hook_batch (exec : ExecUnit → Option HookResolverError)
    (batch : List ExecUnit) : List String × Option ParallelExecutionError :=
  (batch.map fun u => u.hook_id,
   (batch.findSome? fun u => exec u).map ParallelExecutionError.hookResolverError)

/-- Sequential execution of the scheduled batches: each call to
`run_hook_batch` in `run_all_hooks` is followed by `?`, so the first batch
that reports an error ends the run and the remaining batches are never
dispatched. -/
def run_batches (exec : ExecUnit → Option HookResolverError) :
    List (List ExecUnit) → List String × Option ParallelExecutionError
  | [] => ([], none)
  | b :: rest =>
      match run_hook_batch exec b with
      | (ids, some e) => (ids, some e)
      | (ids, none) =>
          let r := run_batches exec rest
          (ids ++ r.1, r.2)

/-- Model of `ParallelExecutor::run_all_hooks` (`src/runner/parallel.rs:171-278`):
prepare the execution units, split them by access mode, run the read pool
first (chunked by `parallelism` when positive), then the write groups in the
order the greedy pass opened them, each group likewise chunked.  The result
is the list of dispatched hook ids (instrumentation) and the error returned,
if any.  `config.fail_fast` is never consulted by this function in the
source. -/
def run_all_hooks (fromRegex : String → Except FileMatcherError FileMatcher)
    (exec : ExecUnit → Option HookResolverError) (config : Config)
    (hooks_to_skip : List String) (files : List Path) :
    List String × Option ParallelExecutionError :=
  match prepare_hook_contexts fromRegex config hooks_to_skip files with
  | Except.error e => ([], some e)
  | Except.ok hook_contexts =>
      let read_hooks := hook_contexts.filter fun u =>
        decide (u.hook.access_mode = AccessMode.read)
      let write_hooks := hook_contexts.filter fun u =>
        !decide (u.hook.access_mode = AccessMode.read)
      let read_batches := dispatch_batches config.parallelism read_hooks
      let write_batches :=
        (group_write_hooks write_hooks).flatMap fun g =>
          dispatch_batches config.parallelism g
      run_batches exec (read_batches ++ write_batches)

/-! ## Tool instances and provisioning — `src/toolchains/` -/

/-- Model of `SetupContext` from `src/toolchains/trait.rs:8-20`. -/
structure SetupContext where
  install_dir : String
  cache_dir : String
  force : Bool
  version : Option String
deriving DecidableEq

/-- Which provisioner a tool instance belongs to. -/
inductive ToolKind where
  | python : ToolKind
  | node : ToolKind
  | ruby : ToolKind
  | system : ToolKind
deriving DecidableEq

/-- The owned data of a provisioner struct (`PythonTool`, `NodeTool`,
`RubyTool`, `SystemTool`): name, version, package list (gems / npm packages /
pip packages), the entry command for `SystemTool`, and the `install_dir`
computed by the constructor. -/
structure ToolInstance where
  kind : ToolKind
  name : String
  version : String
  packages : List String
  command : String
  install_dir : String
deriving DecidableEq

/-- Model of `PythonTool::new` (`src/toolchains/python.rs:36-52`); `temp_dir()` is
modelled as `/tmp`. -/
def PythonTool.new (name version : String) (packages : List String) : ToolInstance :=
  { kind := ToolKind.python, name := name, version := version,
    packages := packages, command := "",
    install_dir := "/tmp/.rustyhook/venvs/python-" ++ name ++ "-" ++ version }

/-- Model of `NodeTool::new` (`src/toolchains/node.rs:52-80`), with
`install_dir = None` as passed by `create_tool`; `temp_dir()` is `/tmp`. -/
def NodeTool.new (name version : String) (packages : List String) : ToolInstance :=
  { kind := ToolKind.node, name := name, version := version,
    packages := packages, command := "",
    install_dir := "/tmp/.rustyhook/venvs/node-" ++ name ++ "-" ++ version }

/-- Model of `RubyTool::new` (`src/toolchains/ruby.rs:35-51`). -/
def RubyTool.new (name version : String) (gems : List String) : ToolInstance :=
  { kind := ToolKind.ruby, name := name, version := version,
    packages := gems, command := "",
    install_dir := ".runtime/ruby/" ++ version ++ "/tool-" ++ name }

/-- Model of `SystemTool::new` (`src/toolchains/system.rs:27-34`). -/
def SystemTool.new (name version command : String) : ToolInstance :=
  { kind := ToolKind.system, name := name, version := version,
    packages := [], command := command, install_dir := "/usr/bin" }

/-- The filesystem world seen by the provisioners: which install directories
hold a completed installation, which commands resolve on the `PATH`, and an
instrumentation counter of filesystem installations performed. -/
structure World where
  installed : List String
  path_cmds : List String
  install_count : Nat
deriving DecidableEq

/-- Model of `Tool::is_installed` of each provisioner: the expected binaries exist
under the tool's own `install_dir` (for `SystemTool`: the first token of the
command resolves on the `PATH`). -/
def ToolInstance.is_installed (t : ToolInstance) (w : World) : Bool :=
  match t.kind with
  | ToolKind.system =>
      match split_whitespace t.command with
      | [] => false
      | cmd :: _ => w.path_cmds.contains cmd
  | _ => w.installed.contains t.install_dir

/-- The filesystem effect of one completed installation into a tool's
install directory (for Python: `create_virtualenv` plus `install_packages`;
similarly for the other downloading provisioners).  The network and
subprocess steps are modelled as succeeding. -/
def World.install (w : World) (t : ToolInstance) : World :=
  { w with installed := w.installed ++ [t.install_dir],
           install_count := w.install_count + 1 }

/-- Model of `Tool::setup` of each provisioner.  Python (`python.rs:623-636`), Node
(`node.rs:386-…`) and Ruby (`ruby.rs:532-…`) all begin with
`if self.is_installed() && !ctx.force { return Ok(()) }` and otherwise
install into the filesystem; `SystemTool::setup` (`system.rs:38-51`) installs
nothing and only checks that the first whitespace token of its command
resolves on the `PATH`. -/
def ToolInstance.setup (t : ToolInstance) (ctx : SetupContext) (w : World) :
    Except ToolError World :=
  match t.kind with
  | ToolKind.system =>
      match split_whitespace t.command with
      | [] => Except.error (ToolError.toolNotFound "Empty command")
      | cmd :: _ =>
          if w.path_cmds.contains cmd then Except.ok w
          else Except.error (ToolError.toolNotFound ("Command not found: " ++ cmd))
  | _ =>
      if t.is_installed w && !ctx.force then Except.ok w
      else Except.ok (w.install t)

/-- Model of `HookResolver::create_tool` (`src/runner/hook_resolver.rs:182-245`):
map the hook's language to a provisioner; the primary package is the first
whitespace token of `entry`, rewritten through a small alias table. -/
def create_tool (hook : Hook) : Except HookResolverError ToolInstance :=
  let version := hook.version.getD "latest"
  match hook.language with
  | "python" =>
      let package_name := (split_whitespace hook.entry).headD hook.entry
      let package :=
        if package_name = "pre-commit-hooks" then "pre-commit-hooks"
        else if package_name = "ruff" then "ruff"
        else if package_name = "shellcheck" then "shellcheck-py"
        else if package_name = "codespell" then "codespell"
        else if package_name = "djhtml" then "djhtml"
        else package_name
      Except.ok (PythonTool.new hook.id version [package])
  | "node" | "javascript" | "typescript" =>
      let package_name := (split_whitespace hook.entry).headD hook.entry
      let package :=
        if package_name = "biome" then "@biomejs/biome" else package_name
      Except.ok (NodeTool.new hook.id version [package])
  | "ruby" =>
      let package_name := (split_whitespace hook.entry).headD hook.entry
      Except.ok (RubyTool.new hook.id version [package_name])
  | "system" =>
      Except.ok (SystemTool.new hook.id version hook.entry)
  | lang => Except.error (HookResolverError.unsupportedLanguage lang)

/-- The resolver state relevant to `setup_tool`: the cache root, the
in-memory tool cache (`HashMap<String, Box<dyn Tool>>`, modelled as an
association list in insertion order), the filesystem world, and an
instrumentation counter of how many times the resolver has invoked a tool's
`setup`. -/
structure ResolverState where
  cache_dir : String
  tool_cache : List (String × ToolInstance)
  world : World
  setup_invocations : Nat
deriving DecidableEq

/-- Number of tool-cache entries stored under `key`. -/
def cache_entries (s : ResolverState) (key : String) : Nat :=
  (s.tool_cache.filter fun p => p.1 = key).length

/-- The `SetupContext` that `setup_tool` builds on a cache miss
(`src/runner/hook_resolver.rs:256-261`): install and cache directories under
the cache root, `force = false`, `version = hook.version || "latest"`. -/
def setup_ctx (cache_dir tool_key : String) (hook : Hook) : SetupContext :=
  { install_dir := cache_dir ++ "/venvs/" ++ tool_key
    cache_dir := cache_dir ++ "/cache/" ++ tool_key
    force := false
    version := some (hook.version.getD "latest") }

/-- Model of `HookResolver::setup_tool` (`src/runner/hook_resolver.rs:248-272`):
look up the key `<language>-<id>`; on a miss create the tool, invoke its
`setup` with `force = false` and insert the instance; on a hit return the
retained instance unchanged. -/
def setup_tool (hook : Hook) (s : ResolverState) :
    Except HookResolverError (ResolverState × ToolInstance) :=
  let tool_key := hook.language ++ "-" ++ hook.id
  match s.tool_cache.lookup tool_key with
  | some tool => Except.ok (s, tool)
  | none =>
      match create_tool hook with
      | Except.error e => Except.error e
      | Except.ok tool =>
          match tool.setup (setup_ctx s.cache_dir tool_key hook) s.world with
          | Except.error e => Except.error (HookResolverError.toolError e)
          | Except.ok w =>
              Except.ok
                ({ s with tool_cache := s.tool_cache ++ [(tool_key, tool)]
                          world := w
                          setup_invocations := s.setup_invocations + 1 },
                 tool)

/-! ## Cache manager — `src/cache/mod.rs` -/

/-- Model of `CacheError` from `src/cache/mod.rs:10-16`. -/
inductive CacheError where
  | ioError (kind : IoErrorKind) (msg : String)
  | serializationError (msg : String)
deriving DecidableEq

/-- A file in the cache directory: its serialized content and its
modification time (seconds, an absolute clock). -/
structure CacheFile where
  content : String
  mtime : Nat
deriving DecidableEq

/-- The cache directory contents: a map from key (relative file name under
the cache root) to the stored file. -/
def CacheFs := List (String × CacheFile)

/-- Model of `CacheManager` (`src/cache/mod.rs:30-36`): cache root plus `max_age`. -/
structure CacheManager where
  cache_dir : String
  max_age : Nat
deriving DecidableEq

/-- Model of `CacheManager::is_valid` (`src/cache/mod.rs:54-72`): the entry's file
exists and `modified.elapsed() < max_age`.  `SystemTime::elapsed` fails when
the modification time lies in the future, in which case the function falls
through to `false`. -/
def CacheManager.is_valid (c : CacheManager) (fs : CacheFs) (now : Nat)
    (key : String) : Bool :=
  match fs.lookup key with
  | none => false
  | some file =>
      if now < file.mtime then false
      else decide (now - file.mtime < c.max_age)

/-- Model of `CacheManager::get` (`src/cache/mod.rs:75-88`), over an abstract
deserializer `de` (`serde_yaml::from_str`): `None` without touching the file
unless `is_valid`, else deserialize the stored content. -/
def CacheManager.get (c : CacheManager) (de : String → Except String V)
    (fs : CacheFs) (now : Nat) (key : String) : Except CacheError (Option V) :=
  if c.is_valid fs now key then
    match fs.lookup key with
    | none => Except.error (CacheError.ioError IoErrorKind.notFound "read_to_string")
    | some file =>
        match de file.content with
        | Except.ok v => Except.ok (some v)
        | Except.error e => Except.error (CacheError.serializationError e)
  else Except.ok none

/-- Model of `CacheManager::set` (`src/cache/mod.rs:91-104`), over an abstract
serializer `ser` (`serde_yaml::to_string`): write the serialized value,
stamping the file with the current time. -/
def CacheManager.set (ser : V → String) (fs : CacheFs) (now : Nat)
    (key : String) (value : V) : CacheFs :=
  (key, { content := ser value, mtime := now }) ::
    fs.filter fun p => p.1 ≠ key

/-! ## Python interpreter version resolution — `src/toolchains/python.rs` -/

/-- Rust's `str::trim`: drop leading and trailing whitespace. -/
def trim_string (s : String) : String :=
  String.mk
    (((s.data.dropWhile Char.isWhitespace).reverse.dropWhile
        Char.isWhitespace).reverse)

/-- A directory, as the list of its path segments with the innermost segment
first, so `parent()` is `List.tail`; `[]` is the filesystem root, whose
`parent()` is `None`. -/
abbrev Dir := List String

/-- Model of `PythonTool::read_python_version_file`
(`src/toolchains/python.rs:55-84`): walk from `dir` up through its ancestors;
at each directory, if a `.python-version` file exists and reads successfully
and its trimmed content is non-empty, return that content; otherwise continue
to the parent.  `versionFile` gives the readable content of the
`.python-version` file in a directory, if the file exists. -/
def read_python_version_file (versionFile : Dir → Option String) :
    Dir → Option String
  | [] =>
      match versionFile [] with
      | some content =>
          if trim_string content ≠ "" then some (trim_string content) else none
      | none => none
  | d :: ds =>
      match versionFile (d :: ds) with
      | some content =>
          if trim_string content ≠ "" then some (trim_string content)
          else read_python_version_file versionFile ds
      | none => read_python_version_file versionFile ds

/-- The interpreter-version resolution performed by
`PythonTool::get_python_download_url` (`src/toolchains/python.rs:103-142`):
start from the pinned default `3.9.18`; when a `SetupContext` is provided,
search `.python-version` from the current directory upward and let a hit
override the default.  The `SetupContext` itself is bound as `_context`:
its `version` field — the hook descriptor's explicit version — is never
consulted. -/
def resolve_interpreter_version (ctx : Option SetupContext)
    (versionFile : Dir → Option String) (current_dir : Dir) : String :=
  let version := "3.9.18"
  match ctx with
  | some _ =>
      match read_python_version_file versionFile current_dir with
      | some python_version => python_version
      | none => version
  | none => version

/-! ## Concrete fixtures used by witness and counterexample theorems -/

/-- A read-write external hook with the given id and `files` pattern. -/
def sample_write_hook (id pat : String) : Hook :=
  { id := id, name := id, entry := "echo", language := "system",
    files := pat, stages := ["commit"], args := [], env := [],
    version := none, hook_type := HookType.external,
    separate_process := false, access_mode := AccessMode.readWrite }

/-- An execution unit for `sample_write_hook`. -/
def sample_unit (id pat : String) (files : List Path) : ExecUnit :=
  { repo_id := "local", hook_id := id, hook := sample_write_hook id pat,
    filtered_files := files }

def unit_rs : ExecUnit := sample_unit "fmt-rs" ".*[.]rs$" ["a.rs"]

def unit_py : ExecUnit := sample_unit "fmt-py" ".*[.]py$" ["b.py"]

def unit_all : ExecUnit := sample_unit "fix-all" "" ["a.rs", "b.py"]

/-- A context for an external hook whose entry command is `black`. -/
def ctx_black : HookContext :=
  HookContext.from_hook
    { sample_write_hook "black" "" with entry := "black" } "/repo" ["a.py"]

/-- A context for an in-process (built-in, same-process) hook. -/
def ctx_builtin : HookContext :=
  HookContext.from_hook
    { sample_write_hook "trailing-whitespace" "" with
        hook_type := HookType.builtIn } "/repo" ["a.py"]

/-- A trivial always-succeeding `dyn Tool`. -/
def tool_ok : ToolDyn := { run := fun _ => Except.ok () }

/-- A compiled-regex oracle that matches paths ending in `.rs`, whatever the
pattern; used to instantiate the abstract compile environment. -/
def matcher_rs : FileMatcher :=
  { isMatch := fun s => List.isPrefixOf ['s', 'r', '.'] s.data.reverse }

def from_regex_rs : String → Except FileMatcherError FileMatcher :=
  fun _ => Except.ok matcher_rs

/-- A compile oracle that always fails; usable where compilation is never
reached (hooks with empty `files` patterns never compile a regex). -/
def no_regex : String → Except FileMatcherError FileMatcher :=
  fun pat => Except.error (FileMatcherError.regexError pat)

/-- A read-only external hook with an empty `files` pattern. -/
def read_hook (id : String) : Hook :=
  { sample_write_hook id "" with access_mode := AccessMode.read }

/-- Two failing read hooks under `fail_fast = false` with `parallelism = 1`. -/
def cfg_two : Config :=
  { default_stages := ["commit"], fail_fast := false, parallelism := 1,
    repos := [{ repo := "local", hooks := [read_hook "h1", read_hook "h2"] }] }

/-- Per-unit outcome oracle where every hook fails with its own error. -/
def exec_fail : ExecUnit → Option HookResolverError :=
  fun u => some (HookResolverError.processError (u.hook_id ++ " failed"))

/-- The execution units that `prepare_hook_contexts` produces for `cfg_two`
on the input `["a.txt"]`. -/
def unit_h1 : ExecUnit :=
  { repo_id := "local", hook_id := "h1", hook := read_hook "h1",
    filtered_files := ["a.txt"] }

def unit_h2 : ExecUnit :=
  { repo_id := "local", hook_id := "h2", hook := read_hook "h2",
    filtered_files := ["a.txt"] }

/-- A Python hook for the tool-cache fixtures. -/
def hook_black : Hook :=
  { sample_write_hook "black" ".*[.]py$" with
      language := "python", entry := "black",
      hook_type := HookType.builtIn }

def state0 : ResolverState :=
  { cache_dir := "/cache", tool_cache := [],
    world := { installed := [], path_cmds := [], install_count := 0 },
    setup_invocations := 0 }

def tool_black : ToolInstance := PythonTool.new "black" "latest" ["black"]

def state1 : ResolverState :=
  { cache_dir := "/cache", tool_cache := [("python-black", tool_black)],
    world := { installed := ["/tmp/.rustyhook/venvs/python-black-latest"],
               path_cmds := [], install_count := 1 },
    setup_invocations := 1 }

/-- A concrete serializer/deserializer pair for natural numbers (unary
encoding), standing in for `serde_yaml` in the cache witnesses. -/
def unary_ser : Nat → String := fun n => String.mk (List.replicate n 'x')

def unary_de : String → Except String Nat := fun s => Except.ok s.data.length

def cache_mgr : CacheManager := { cache_dir := "/cache", max_age := 100 }

/-- A `SetupContext` whose descriptor-supplied explicit version is `3.12.0`. -/
def ctx_explicit : SetupContext :=
  { install_dir := "/cache/venvs/python-black", cache_dir := "/cache/cache/python-black",
    force := false, version := some "3.12.0" }

/-- A filesystem in which `proj/.python-version` holds `3.11.1` (with a
trailing newline) and no other directory has a version file. -/
def vf_proj : Dir → Option String :=
  fun d => if d = ["proj"] then some "3.11.1\n" else none

end RustyHook

namespace RustyHook

/-! ## Invariants of the grouping pass (helper lemmas) -/

/-- Invariant maintained by the grouping pass for every group it has built:
the group is nonempty, pairwise non-overlapping in insertion order, and a
group containing a hook with an empty `files` pattern is that singleton. -/
def GoodGroup (g : List ExecUnit) : Prop :=
  g ≠ [] ∧
  g.Pairwise (fun a b => hooks_overlap a.hook b.hook = false) ∧
  (∀ u ∈ g, u.hook.files = "" → g = [u])

theorem hooks_overlap_eq_false_iff {a b : Hook} :
    hooks_overlap a b = false ↔ a.files ≠ "" ∧ b.files ≠ "" ∧ a.files ≠ b.files := by
  unfold hooks_overlap
  by_cases h1 : a.files = "" <;> by_cases h2 : b.files = "" <;>
    simp [h1, h2]

theorem can_add_to_group_spec {h : Hook} {g : List ExecUnit}
    (hc : can_add_to_group h g = true) :
    ∀ e ∈ g, hooks_overlap e.hook h = false := by
  intro e he
  have := (List.all_eq_true.mp hc) e he
  simpa using this

theorem goodGroup_add_to_groups {u : ExecUnit} {gs : List (List ExecUnit)}
    (hgs : ∀ g ∈ gs, GoodGroup g) :
    ∀ g ∈ add_to_groups u gs, GoodGroup g := by
  induction gs with
  | nil =>
      intro g hg
      simp only [add_to_groups, List.mem_singleton] at hg
      subst hg
      refine ⟨by simp, by simp, ?_⟩
      intro v hv _
      simp only [List.mem_singleton] at hv
      simp [hv]
  | cons g0 gs ih =>
      intro g hg
      have hg0 : GoodGroup g0 := hgs g0 (by simp)
      have hrest : ∀ g ∈ gs, GoodGroup g := fun g h => hgs g (by simp [h])
      by_cases hc : can_add_to_group u.hook g0 = true
      · simp only [add_to_groups, if_pos hc, List.mem_cons] at hg
        rcases hg with hg | hg
        · subst hg
          have hover : ∀ e ∈ g0, hooks_overlap e.hook u.hook = false :=
            can_add_to_group_spec hc
          refine ⟨by simp, ?_, ?_⟩
          · refine List.pairwise_append.mpr ⟨hg0.2.1, by simp, ?_⟩
            intro a ha b hb
            simp only [List.mem_singleton] at hb
            subst hb
            exact hover a ha
          · -- no member of `g0 ++ [u]` has an empty pattern
            intro v hv hvfiles
            exfalso
            rcases List.mem_append.mp hv with hvg | hvu
            · -- a member of g0 with empty files would overlap-check as false,
              -- contradicting `hooks_overlap` being true on empty patterns
              have := hover v hvg
              rw [hooks_overlap_eq_false_iff] at this
              exact this.1 hvfiles
            · simp only [List.mem_singleton] at hvu
              subst hvu
              obtain ⟨e, he⟩ := List.exists_mem_of_ne_nil g0 hg0.1
              have := hover e he
              rw [hooks_overlap_eq_false_iff] at this
              exact this.2.1 hvfiles
        · exact hrest g hg
      · simp only [add_to_groups, if_neg hc, List.mem_cons] at hg
        rcases hg with hg | hg
        · subst hg; exact hg0
        · exact ih hrest g hg

theorem goodGroup_group_write_hooks (units : List ExecUnit) :
    ∀ g ∈ group_write_hooks units, GoodGroup g := by
  suffices h : ∀ gs : List (List ExecUnit), (∀ g ∈ gs, GoodGroup g) →
      ∀ g ∈ units.foldl (fun gs u => add_to_groups u gs) gs, GoodGroup g by
    exact h [] (by simp)
  induction units with
  | nil => intro gs hgs; simpa using hgs
  | cons u rest ih =>
      intro gs hgs
      simp only [List.foldl_cons]
      exact ih _ (goodGroup_add_to_groups hgs)

theorem chunks_go_sublist {n : Nat} : ∀ {l cur c : List α},
    c ∈ chunks_go n l cur → c.Sublist (cur ++ l)
  | [], cur, c, hc => by
      simp only [chunks_go] at hc
      by_cases he : cur.isEmpty
      · simp [he] at hc
      · rw [if_neg he] at hc
        simp only [List.mem_singleton] at hc
        subst hc
        simp
  | x :: xs, cur, c, hc => by
      simp only [chunks_go] at hc
      by_cases hlt : cur.length + 1 < n
      · rw [if_pos hlt] at hc
        have ih := chunks_go_sublist hc
        simpa [List.append_assoc] using ih
      · rw [if_neg hlt] at hc
        rcases List.mem_cons.mp hc with hc | hc
        · subst hc
          exact List.append_sublist_append_left cur |>.mpr (by simp)
        · have ih := chunks_go_sublist hc
          simp only [List.nil_append] at ih
          exact ih.trans ((List.sublist_cons_self x xs).trans
            (List.sublist_append_right cur (x :: xs)))

theorem chunksOf_sublist {n : Nat} {l c : List α}
    (hc : c ∈ chunksOf n l) : c.Sublist l := by
  unfold chunksOf at hc
  by_cases hn : n = 0
  · simp [hn] at hc
  · rw [if_neg hn] at hc
    simpa using chunks_go_sublist hc

theorem dispatch_batches_sublist {p : Nat} {g b : List ExecUnit}
    (hb : b ∈ dispatch_batches p g) : b.Sublist g := by
  unfold dispatch_batches at hb
  by_cases hp : p > 0
  · rw [if_pos hp] at hb
    exact chunksOf_sublist hb
  · rw [if_neg hp] at hb
    simp only [List.mem_singleton] at hb
    subst hb
    exact List.Sublist.refl b

end RustyHook

namespace RustyHook

/-! ## Claims about the write-group invariant -/

/-- Claim C1: Any two distinct read-write execution units placed in the same
concurrent group by `ParallelExecutor::run_all_hooks` — and hence any two in
the same dispatched batch of that group — have non-empty, string-unequal
`files` patterns. -/
theorem write_groups_pairwise_disjoint (units : List ExecUnit)
    (parallelism : Nat) (g : List ExecUnit) (hg : g ∈ group_write_hooks units)
    (b : List ExecUnit) (hb : b ∈ dispatch_batches parallelism g) :
    b.Pairwise (fun u v =>
      u.hook.files ≠ "" ∧ v.hook.files ≠ "" ∧ u.hook.files ≠ v.hook.files) := by
  have hgood := goodGroup_group_write_hooks units g hg
  have hpair : g.Pairwise (fun u v =>
      u.hook.files ≠ "" ∧ v.hook.files ≠ "" ∧ u.hook.files ≠ v.hook.files) := by
    refine hgood.2.1.imp ?_
    intro a b h
    exact hooks_overlap_eq_false_iff.mp h
  exact List.Pairwise.sublist (dispatch_batches_sublist hb) hpair

/-- Claim C10: A read-write execution unit whose `files` pattern is empty always
forms a write group of size one: the grouping pass never pairs it with any
other write unit. -/
theorem empty_pattern_singleton_group (units : List ExecUnit)
    (g : List ExecUnit) (hg : g ∈ group_write_hooks units)
    (u : ExecUnit) (hu : u ∈ g) (hfiles : u.hook.files = "") :
    g = [u] :=
  (goodGroup_group_write_hooks units g hg).2.2 u hu hfiles

/-- Witness for `write_groups_pairwise_disjoint`: two write units with
distinct non-empty patterns land in one group, dispatched as one batch. -/
theorem write_groups_pairwise_disjoint_witness :
    ([unit_rs, unit_py] : List ExecUnit).Pairwise (fun u v =>
      u.hook.files ≠ "" ∧ v.hook.files ≠ "" ∧ u.hook.files ≠ v.hook.files) :=
  write_groups_pairwise_disjoint [unit_rs, unit_py] 0 [unit_rs, unit_py]
    (by decide) [unit_rs, unit_py] (by decide)

/-- Witness for `empty_pattern_singleton_group`: a write unit with an empty
pattern, grouped together with an ordinary write unit, stays alone. -/
theorem empty_pattern_singleton_group_witness : ([unit_all] : List ExecUnit) = [unit_all] :=
  empty_pattern_singleton_group [unit_all, unit_rs] [unit_all] (by decide)
    unit_all (by decide) (by decide)

/-! ## Claims about the hook context -/

/-- Claim C7: For a context with a non-empty file list, `execute` dispatches via
subprocess exactly when `hook_type = external` or `separate_process = true`
(which is precisely what `should_run_in_separate_process` returns), and
otherwise delegates to the supplied Tool's `run` on the file list. -/
theorem execute_dispatch (ctx : HookContext) (tool : ToolDyn)
    (spawn : SpawnOutcome) (hfiles : ctx.files_to_process ≠ []) :
    (ctx.should_run_in_separate_process = true ↔
      ctx.hook_type = HookType.external ∨ ctx.separate_process = true) ∧
    ((ctx.hook_type = HookType.external ∨ ctx.separate_process = true) →
      ctx.execute (some tool) spawn = ctx.run_in_separate_process spawn) ∧
    (¬(ctx.hook_type = HookType.external ∨ ctx.separate_process = true) →
      ctx.execute (some tool) spawn =
        (tool.run ctx.files_to_process).mapError HookContextError.toolError) := by
  have hiff : ctx.should_run_in_separate_process = true ↔
      ctx.hook_type = HookType.external ∨ ctx.separate_process = true := by
    simp [HookContext.should_run_in_separate_process, Bool.or_eq_true,
      decide_eq_true_iff, or_comm]
  refine ⟨hiff, ?_, ?_⟩
  · intro h
    have hs : ctx.should_run_in_separate_process = true := hiff.mpr h
    simp [HookContext.execute, if_neg hfiles, hs]
  · intro h
    have hs : ctx.should_run_in_separate_process = false := by
      rcases Bool.eq_false_or_eq_true ctx.should_run_in_separate_process with hb | hb
      · exact absurd (hiff.mp hb) h
      · exact hb
    simp [HookContext.execute, if_neg hfiles, hs]

/-- Witness for `execute_dispatch`: an in-process built-in hook with one file
to process. -/
theorem execute_dispatch_witness :
    (ctx_builtin.should_run_in_separate_process = true ↔
      ctx_builtin.hook_type = HookType.external ∨ ctx_builtin.separate_process = true) ∧
    ((ctx_builtin.hook_type = HookType.external ∨ ctx_builtin.separate_process = true) →
      ctx_builtin.execute (some tool_ok) (SpawnOutcome.completed true "") =
        ctx_builtin.run_in_separate_process (SpawnOutcome.completed true "")) ∧
    (¬(ctx_builtin.hook_type = HookType.external ∨ ctx_builtin.separate_process = true) →
      ctx_builtin.execute (some tool_ok) (SpawnOutcome.completed true "") =
        (tool_ok.run ctx_builtin.files_to_process).mapError HookContextError.toolError) :=
  execute_dispatch ctx_builtin tool_ok (SpawnOutcome.completed true "") (by decide)

/-- Claim C5: `run_in_separate_process`, evaluated at its two failure
situations: a completed subprocess with non-zero exit yields `ProcessError`,
as the claim says; but a spawn failure whose OS cause is "not found" yields
`HookContextError::IoError` — the enum declared in `hook_context.rs` has no
`CommandNotFound` variant for `run_in_separate_process` to produce, even
though the callers in `hook_resolver.rs` and `parallel.rs` match on one. -/
theorem run_in_separate_process_error_kinds :
    ctx_black.run_in_separate_process (SpawnOutcome.completed false "oops") =
      Except.error (HookContextError.processError "Hook black failed: oops") ∧
    ctx_black.run_in_separate_process
        (SpawnOutcome.ioError IoErrorKind.notFound "No such file or directory (os error 2)") =
      Except.error
        (HookContextError.ioError IoErrorKind.notFound
          "No such file or directory (os error 2)") := by
  constructor <;> rfl

/-! ## Claims about file filtering -/

/-- Claim C3: For a hook with a non-empty `files` pattern, the file list
delivered into the hook's context is exactly the subsequence of the input
whose textual form matches the compiled regex, in input order; with an empty
pattern, the whole input list is delivered. -/
theorem create_context_delivers_matching_files
    (fromRegex : String → Except FileMatcherError FileMatcher)
    (hook : Hook) (wd : Path) (files : List Path) :
    (∀ m, hook.files ≠ "" → fromRegex hook.files = Except.ok m →
      ∃ ctx, create_context fromRegex hook wd files = Except.ok ctx ∧
        ctx.files_to_process = files.filter (fun p => m.matches p) ∧
        ctx.files_to_process.Sublist files ∧
        (∀ p, p ∈ ctx.files_to_process ↔ p ∈ files ∧ m.matches p = true)) ∧
    (hook.files = "" →
      create_context fromRegex hook wd files =
        Except.ok (HookContext.from_hook hook wd files)) := by
  constructor
  · intro m hne hok
    refine ⟨HookContext.from_hook hook wd (m.filter_files files), ?_, rfl, ?_, ?_⟩
    · unfold create_context
      rw [if_pos hne, hok]
    · exact List.filter_sublist files
    · intro p
      simp [HookContext.from_hook, FileMatcher.filter_files, List.mem_filter]
  · intro he
    unfold create_context
    rw [if_neg (by simp [he])]

/-- Witness for `create_context_delivers_matching_files`: a `.rs`-matching
regex over a three-file input. -/
theorem create_context_delivers_matching_files_witness :
    ∃ ctx, create_context from_regex_rs unit_rs.hook "/repo"
        ["a.rs", "b.py", "c.rs"] = Except.ok ctx ∧
      ctx.files_to_process =
        (["a.rs", "b.py", "c.rs"] : List Path).filter
          (fun p => matcher_rs.matches p) ∧
      ctx.files_to_process.Sublist ["a.rs", "b.py", "c.rs"] ∧
      (∀ p, p ∈ ctx.files_to_process ↔
        p ∈ (["a.rs", "b.py", "c.rs"] : List Path) ∧ matcher_rs.matches p = true) :=
  (create_context_delivers_matching_files from_regex_rs unit_rs.hook "/repo"
    ["a.rs", "b.py", "c.rs"]).1 matcher_rs (by decide) rfl

/-- Claim C9: `filter_files` is idempotent, and the engine's double filtering is
harmless: the list the scheduler computes in `prepare_hook_contexts` for a
unit, when filtered again by the resolver's `create_context` (as happens when
`run_hook` re-creates the context from the already-filtered list), is
delivered unchanged. -/
theorem filter_files_idempotent
    (fromRegex : String → Except FileMatcherError FileMatcher)
    (hook : Hook) (wd : Path) (files lf : List Path)
    (hprep : prepare_filtered fromRegex hook files = Except.ok lf) :
    (∀ (m : FileMatcher) (l : List Path),
      m.filter_files (m.filter_files l) = m.filter_files l) ∧
    ∃ ctx, create_context fromRegex hook wd lf = Except.ok ctx ∧
      ctx.files_to_process = lf := by
  have hidem : ∀ (m : FileMatcher) (l : List Path),
      m.filter_files (m.filter_files l) = m.filter_files l := by
    intro m l
    unfold FileMatcher.filter_files
    rw [List.filter_filter]
    simp
  refine ⟨hidem, ?_⟩
  by_cases hne : hook.files = ""
  · have hlf : lf = files := by
      unfold prepare_filtered at hprep
      rw [if_neg (by simp [hne])] at hprep
      exact (Except.ok.injEq _ _).mp hprep.symm
    subst hlf
    refine ⟨HookContext.from_hook hook wd lf, ?_, rfl⟩
    unfold create_context
    rw [if_neg (by simp [hne])]
  · unfold prepare_filtered at hprep
    rw [if_pos hne] at hprep
    cases hm : fromRegex hook.files with
    | error e =>
        rw [hm] at hprep
        exact absurd hprep (by simp [Except.map])
    | ok m =>
        rw [hm] at hprep
        simp only [Except.map, Except.ok.injEq] at hprep
        refine ⟨HookContext.from_hook hook wd (m.filter_files lf), ?_, ?_⟩
        · unfold create_context
          rw [if_pos hne, hm]
        · show m.filter_files lf = lf
          rw [← hprep, hidem]

/-- Witness for `filter_files_idempotent`: the scheduler's filtered list for
the `.rs` hook, re-filtered by context creation, is unchanged. -/
theorem filter_files_idempotent_witness :
    (∀ (m : FileMatcher) (l : List Path),
      m.filter_files (m.filter_files l) = m.filter_files l) ∧
    ∃ ctx, create_context from_regex_rs unit_rs.hook "/repo"
        ["a.rs", "c.rs"] = Except.ok ctx ∧
      ctx.files_to_process = ["a.rs", "c.rs"] :=
  filter_files_idempotent from_regex_rs unit_rs.hook "/repo"
    ["a.rs", "b.py", "c.rs"] ["a.rs", "c.rs"] (by rfl)

/-! ## Claims about tool provisioning -/

theorem lookup_append_of_none {α β : Type} [BEq α] {l1 l2 : List (α × β)}
    {k : α} (h : l1.lookup k = none) : (l1 ++ l2).lookup k = l2.lookup k := by
  induction l1 with
  | nil => simp
  | cons p l1 ih =>
      obtain ⟨k', v⟩ := p
      rw [List.cons_append]
      cases hbeq : k == k'
      · simp only [List.lookup, hbeq] at h ⊢
        exact ih h
      · simp only [List.lookup, hbeq] at h
        exact Option.noConfusion h

/-- Claim C4: `setup_tool` is idempotent: after a first call on a missing key,
the state holds exactly one more tool-cache entry under `<language>-<id>`,
the tool's `setup` has been invoked exactly once more, and a second call
returns the retained instance without changing the state; moreover any
`Tool::setup` with `force = false` on an already-installed tool leaves the
filesystem unchanged. -/
theorem setup_tool_idempotent (hook : Hook) (s s1 : ResolverState)
    (t1 : ToolInstance)
    (hmiss : s.tool_cache.lookup (hook.language ++ "-" ++ hook.id) = none)
    (hfirst : setup_tool hook s = Except.ok (s1, t1)) :
    setup_tool hook s1 = Except.ok (s1, t1) ∧
    cache_entries s1 (hook.language ++ "-" ++ hook.id) =
      cache_entries s (hook.language ++ "-" ++ hook.id) + 1 ∧
    s1.setup_invocations = s.setup_invocations + 1 ∧
    (∀ (t : ToolInstance) (ctx : SetupContext) (w : World),
      t.is_installed w = true → ctx.force = false →
      t.setup ctx w = Except.ok w) := by
  have hnoop : ∀ (t : ToolInstance) (ctx : SetupContext) (w : World),
      t.is_installed w = true → ctx.force = false →
      t.setup ctx w = Except.ok w := by
    intro t ctx w hinst hforce
    cases hk : t.kind with
    | system =>
        cases hsplit : split_whitespace t.command with
        | nil =>
            simp [ToolInstance.is_installed, hk, hsplit] at hinst
        | cons cmd rest =>
            simp only [ToolInstance.is_installed, hk, hsplit] at hinst
            simp only [ToolInstance.setup, hk, hsplit]
            rw [if_pos hinst]
    | python =>
        simp only [ToolInstance.setup, hk]
        rw [hinst, hforce]
        simp
    | node =>
        simp only [ToolInstance.setup, hk]
        rw [hinst, hforce]
        simp
    | ruby =>
        simp only [ToolInstance.setup, hk]
        rw [hinst, hforce]
        simp
  simp only [setup_tool, hmiss] at hfirst
  cases hct : create_tool hook with
  | error e =>
      simp only [hct] at hfirst
      exact Except.noConfusion hfirst
  | ok tool =>
      simp only [hct] at hfirst
      cases hst : tool.setup
          (setup_ctx s.cache_dir (hook.language ++ "-" ++ hook.id) hook)
          s.world with
      | error e =>
          simp only [hst] at hfirst
          exact Except.noConfusion hfirst
      | ok w =>
          simp only [hst, Except.ok.injEq, Prod.mk.injEq] at hfirst
          obtain ⟨hs1, ht1⟩ := hfirst
          subst ht1
          subst hs1
          refine ⟨?_, ?_, ?_, hnoop⟩
          · simp only [setup_tool]
            rw [lookup_append_of_none hmiss]
            simp [List.lookup]
          · simp [cache_entries, List.filter_append]
          · rfl

/-- Witness for `setup_tool_idempotent`: a Python hook provisioned from an
empty resolver state. -/
theorem setup_tool_idempotent_witness :
    setup_tool hook_black state1 = Except.ok (state1, tool_black) ∧
    cache_entries state1 (hook_black.language ++ "-" ++ hook_black.id) =
      cache_entries state0 (hook_black.language ++ "-" ++ hook_black.id) + 1 ∧
    state1.setup_invocations = state0.setup_invocations + 1 ∧
    (∀ (t : ToolInstance) (ctx : SetupContext) (w : World),
      t.is_installed w = true → ctx.force = false →
      t.setup ctx w = Except.ok w) :=
  setup_tool_idempotent hook_black state0 state1 tool_black (by rfl) (by rfl)

/-! ## Claims about the cache manager -/

/-- Claim C8: After `set(k, v)` succeeds, `get(k)` returns `Some v` while the
elapsed time since the entry's (unchanged) modification time is below
`max_age` and `None` once it exceeds `max_age`; and `is_valid(k)` holds
exactly when the key's file exists and its modification time is within
`max_age` of the query time. -/
theorem cache_set_then_get {V : Type} (c : CacheManager) (ser : V → String)
    (de : String → Except String V) (fs : CacheFs) (now later : Nat)
    (key : String) (v : V)
    (hround : de (ser v) = Except.ok v) (hle : now ≤ later) :
    (later - now < c.max_age →
      c.get de (CacheManager.set ser fs now key v) later key =
        Except.ok (some v)) ∧
    (later - now > c.max_age →
      c.get de (CacheManager.set ser fs now key v) later key =
        Except.ok none) ∧
    (∀ (fs' : CacheFs) (k : String),
      c.is_valid fs' later k = true ↔
      ∃ file, List.lookup k fs' = some file ∧ file.mtime ≤ later ∧
        later - file.mtime < c.max_age) := by
  have hlook : List.lookup key (CacheManager.set ser fs now key v) =
      some { content := ser v, mtime := now } := by
    simp [CacheManager.set, List.lookup]
  have hnotlt : ¬ later < now := Nat.not_lt.mpr hle
  refine ⟨?_, ?_, ?_⟩
  · intro h
    have hvalid : c.is_valid (CacheManager.set ser fs now key v) later key
        = true := by
      simp only [CacheManager.is_valid, hlook]
      rw [if_neg hnotlt]
      simpa using h
    simp [CacheManager.get, hvalid, hlook, hround]
  · intro h
    have hvalid : c.is_valid (CacheManager.set ser fs now key v) later key
        = false := by
      simp only [CacheManager.is_valid, hlook]
      rw [if_neg hnotlt]
      simp
      omega
    simp [CacheManager.get, hvalid]
  · intro fs' k
    constructor
    · intro hv
      cases hl : List.lookup k fs' with
      | none => simp [CacheManager.is_valid, hl] at hv
      | some file =>
          simp only [CacheManager.is_valid, hl] at hv
          by_cases hlt : later < file.mtime
          · rw [if_pos hlt] at hv
            exact Bool.noConfusion hv
          · rw [if_neg hlt] at hv
            exact ⟨file, rfl, Nat.not_lt.mp hlt, by simpa using hv⟩
    · rintro ⟨file, hl, hm, hage⟩
      simp only [CacheManager.is_valid, hl]
      rw [if_neg (Nat.not_lt.mpr hm)]
      simpa using hage

/-- Witness for `cache_set_then_get`: a value written at time 10 and read
back at time 50 under `max_age = 100`. -/
theorem cache_set_then_get_witness :
    (50 - 10 < cache_mgr.max_age →
      cache_mgr.get unary_de (CacheManager.set unary_ser [] 10 "repos-index" 7)
        50 "repos-index" = Except.ok (some 7)) ∧
    (50 - 10 > cache_mgr.max_age →
      cache_mgr.get unary_de (CacheManager.set unary_ser [] 10 "repos-index" 7)
        50 "repos-index" = Except.ok none) ∧
    (∀ (fs' : CacheFs) (k : String),
      cache_mgr.is_valid fs' 50 k = true ↔
      ∃ file, List.lookup k fs' = some file ∧ file.mtime ≤ 50 ∧
        50 - file.mtime < cache_mgr.max_age) :=
  cache_set_then_get cache_mgr unary_ser unary_de [] 10 50 "repos-index" 7
    (by rfl) (by decide)

/-! ## Claims about Python interpreter version resolution -/

/-- Claim C6, counterexample: The claim says an explicit version in the hook
descriptor wins; but `get_python_download_url` never reads the
`SetupContext`'s version field: with descriptor version `3.12.0` in scope,
a `.python-version` file containing `3.11.1` wins, and with no version file
the pinned default `3.9.18` is used — never `3.12.0`. -/
theorem resolve_interpreter_version_ignores_descriptor :
    ctx_explicit.version = some "3.12.0" ∧
    resolve_interpreter_version (some ctx_explicit) vf_proj ["proj"] = "3.11.1" ∧
    resolve_interpreter_version (some ctx_explicit) (fun _ => none) ["proj"]
      = "3.9.18" := by
  refine ⟨rfl, ?_, rfl⟩
  rfl

/-- Claim C6 as amended: Interpreter-version priority as implemented: when a
`SetupContext` is provided, the nearest `.python-version` file found by the
ancestor walk wins, otherwise the pinned default `3.9.18`; without a
`SetupContext` the default is used; and a non-empty (after trimming) version
file in the starting directory itself is the nearest hit. -/
theorem resolve_interpreter_version_priority (ctx : SetupContext)
    (versionFile : Dir → Option String) (dir : Dir) :
    (resolve_interpreter_version (some ctx) versionFile dir =
      match read_python_version_file versionFile dir with
      | some v => v
      | none => "3.9.18") ∧
    resolve_interpreter_version none versionFile dir = "3.9.18" ∧
    (∀ content, versionFile dir = some content → trim_string content ≠ "" →
      read_python_version_file versionFile dir = some (trim_string content)) := by
  refine ⟨rfl, rfl, ?_⟩
  intro content hfile hne
  cases dir with
  | nil => simp [read_python_version_file, hfile, hne]
  | cons d ds => simp [read_python_version_file, hfile, hne]

/-- Witness for `resolve_interpreter_version_priority`: the version file in
the starting directory is returned trimmed. -/
theorem resolve_interpreter_version_priority_witness :
    read_python_version_file vf_proj ["proj"] =
      some (trim_string ("3.11.1" ++ "\n")) :=
  (resolve_interpreter_version_priority ctx_explicit vf_proj ["proj"]).2.2
    ("3.11.1" ++ "\n") (by rfl) (by decide)

/-! ## Claims about error aggregation and fail-fast -/

/-- Claim C2, counterexample: With `fail_fast = false` and two failing read
hooks in separate batches (`parallelism = 1`), `run_all_hooks` dispatches
only the first batch and returns the first hook's error alone — it neither
runs the remaining batch nor aggregates errors into a composite (the error
type cannot even hold two errors) — and its behaviour is identical with
`fail_fast = true`. -/
theorem run_all_hooks_first_error_only :
    cfg_two.fail_fast = false ∧
    run_all_hooks no_regex exec_fail cfg_two [] ["a.txt"] =
      (["h1"], some (ParallelExecutionError.hookResolverError
        (HookResolverError.processError "h1 failed"))) ∧
    run_all_hooks no_regex exec_fail { cfg_two with fail_fast := true } []
        ["a.txt"] =
      run_all_hooks no_regex exec_fail cfg_two [] ["a.txt"] := by
  refine ⟨rfl, ?_, rfl⟩
  rfl

/-- Claim C2 as amended: `run_all_hooks` never consults `fail_fast`: its result
is unchanged by that flag, and a batch that reports an error ends the run
with that single error, skipping all later batches. -/
theorem run_all_hooks_ignores_fail_fast
    (fromRegex : String → Except FileMatcherError FileMatcher)
    (exec : ExecUnit → Option HookResolverError) (config : Config)
    (skip : List String) (files : List Path) (b : Bool) :
    (run_all_hooks fromRegex exec { config with fail_fast := b } skip files =
      run_all_hooks fromRegex exec config skip files) ∧
    (∀ (batch : List ExecUnit) (rest : List (List ExecUnit))
        (ids : List String) (e : ParallelExecutionError),
      run_hook_batch exec batch = (ids, some e) →
      run_batches exec (batch :: rest) = (ids, some e)) := by
  constructor
  · rfl
  · intro batch rest ids e h
    rw [run_batches, h]

/-- Witness for `run_all_hooks_ignores_fail_fast`: flipping `fail_fast` on
the concrete two-hook configuration changes nothing, and the first failing
batch ends the run. -/
theorem run_all_hooks_ignores_fail_fast_witness :
    run_batches exec_fail ([unit_h1] :: [[unit_h2]]) =
      (["h1"], some (ParallelExecutionError.hookResolverError
        (HookResolverError.processError "h1 failed"))) :=
  (run_all_hooks_ignores_fail_fast no_regex exec_fail cfg_two [] ["a.txt"]
      true).2
    [unit_h1] [[unit_h2]] ["h1"]
    (ParallelExecutionError.hookResolverError
      (HookResolverError.processError "h1 failed")) (by rfl)

end RustyHook
